import Mathlib

/-
  Verification of the geometric helper toolkit of the psynlig plotting
  library (psynlig/common.py): the axis-intersection solver, the label
  decluttering ("jiggle") engine, the component selector and the
  interquartile-range outlier detector.

  Numeric values are modelled as exact rationals where the Python code
  performs only field operations, and as real numbers where a square
  root is involved (the Euclidean norm in the jiggle engine).
-/

namespace Psynlig

/-- Translation of `find_axis_intersection(axi, xcoeff, ycoeff)` from
psynlig/common.py.  The axis object is represented by its x/y limit
pairs; the function itself takes `min`/`max` of each pair, exactly as
the source does.  The Python routine initialises `xend, yend = None,
None` and assigns both together in every branch, so the return type is
`Option (ℚ × ℚ)`.  The `direction` helper `np.sign(xcoeff * xhat +
ycoeff * yhat) > 0` is the predicate `0 < xcoeff * xhat + ycoeff *
yhat`.  The four possibilities are evaluated in source order (left,
bottom, right, top) and each accepted candidate overwrites the
previous value. -/
def find_axis_intersection (xlim ylim : ℚ × ℚ) (xcoeff ycoeff : ℚ) :
    Option (ℚ × ℚ) :=
  let xmin := min xlim.1 xlim.2
  let xmax := max xlim.1 xlim.2
  let ymin := min ylim.1 ylim.2
  let ymax := max ylim.1 ylim.2
  if xcoeff = 0 ∧ ycoeff = 0 then
    -- Can not extend it...
    none
  else
    if xcoeff = 0 then
      some (0, if ycoeff > 0 then ymax else ymin)
    else if ycoeff = 0 then
      some (if xcoeff > 0 then xmax else xmin, 0)
    else
      -- Possibility 1:
      let yhat1 := ycoeff * xmin / xcoeff
      let r1 : Option (ℚ × ℚ) :=
        if ymin ≤ yhat1 ∧ yhat1 ≤ ymax ∧ 0 < xcoeff * xmin + ycoeff * yhat1
          then some (xmin, yhat1) else none
      -- Possibility 2:
      let xhat2 := xcoeff * ymin / ycoeff
      let r2 : Option (ℚ × ℚ) :=
        if xmin ≤ xhat2 ∧ xhat2 ≤ xmax ∧ 0 < xcoeff * xhat2 + ycoeff * ymin
          then some (xhat2, ymin) else r1
      -- Possibility 3:
      let yhat3 := ycoeff * xmax / xcoeff
      let r3 : Option (ℚ × ℚ) :=
        if ymin ≤ yhat3 ∧ yhat3 ≤ ymax ∧ 0 < xcoeff * xmax + ycoeff * yhat3
          then some (xmax, yhat3) else r2
      -- Possibility 4:
      let xhat4 := xcoeff * ymax / ycoeff
      let r4 : Option (ℚ × ℚ) :=
        if xmin ≤ xhat4 ∧ xhat4 ≤ xmax ∧ 0 < xcoeff * xhat4 + ycoeff * ymax
          then some (xhat4, ymax) else r3
      r4

/-- Acceptance test for a candidate on a vertical boundary line `x = a`
of the viewport: the computed y coordinate `ycoeff * a / xcoeff` must
lie within the y bounds and the candidate must lie in the half-plane
the direction vector points into. -/
def acceptVert (ylim : ℚ × ℚ) (xcoeff ycoeff a : ℚ) : Prop :=
  min ylim.1 ylim.2 ≤ ycoeff * a / xcoeff ∧
    ycoeff * a / xcoeff ≤ max ylim.1 ylim.2 ∧
    0 < xcoeff * a + ycoeff * (ycoeff * a / xcoeff)

/-- Acceptance test for a candidate on a horizontal boundary line
`y = b` of the viewport. -/
def acceptHoriz (xlim : ℚ × ℚ) (xcoeff ycoeff b : ℚ) : Prop :=
  min xlim.1 xlim.2 ≤ xcoeff * b / ycoeff ∧
    xcoeff * b / ycoeff ≤ max xlim.1 xlim.2 ∧
    0 < xcoeff * (xcoeff * b / ycoeff) + ycoeff * b

instance (ylim : ℚ × ℚ) (xcoeff ycoeff a : ℚ) :
    Decidable (acceptVert ylim xcoeff ycoeff a) := by
  unfold acceptVert; infer_instance

instance (xlim : ℚ × ℚ) (xcoeff ycoeff b : ℚ) :
    Decidable (acceptHoriz xlim xcoeff ycoeff b) := by
  unfold acceptHoriz; infer_instance

/-- Lazy combination enumeration in the order of Python's
`itertools.combinations`: all length-`r` subsequences of `xs`, emitted
lexicographically by position. -/
def combinations {α : Type} : ℕ → List α → List (List α)
  | 0, _ => [[]]
  | _ + 1, [] => []
  | r + 1, x :: xs =>
      ((combinations r xs).map (fun l => x :: l)) ++ combinations (r + 1) xs

/-- The explicit selection argument of `get_selector`: either an
iterable of 1-based component numbers (used when `combi == 1`) or an
iterable of tuples of 1-based component numbers. -/
inductive Selection where
  | singles : List ℤ → Selection
  | tuples : List (List ℤ) → Selection
deriving DecidableEq

/-- The value produced by `get_selector`: either a sequence of single
indices (`combi == 1`) or a sequence of index tuples. -/
inductive SelectorResult where
  | singles : List ℤ → SelectorResult
  | tuples : List (List ℤ) → SelectorResult
deriving DecidableEq

/-- Translation of `get_selector(components, select_components, combi)`
from psynlig/common.py.  With no explicit selection it produces
`range(components)` for `combi == 1` and
`combinations(range(components), combi)` otherwise; an explicit
selection is converted from 1-based to 0-based indices.  A shape
mismatch between the selection and `combi` (numbers where tuples are
expected, or conversely) is a dynamic type error when Python consumes
the generator, modelled as `none`. -/
def get_selector (components : ℕ) (select_components : Option Selection)
    (combi : ℕ) : Option SelectorResult :=
  match select_components with
  | none =>
      if combi = 1 then
        some (.singles ((List.range components).map Int.ofNat))
      else
        some (.tuples
          ((combinations combi (List.range components)).map
            (fun l => l.map Int.ofNat)))
  | some (.singles l) =>
      if combi = 1 then some (.singles (l.map (fun i => i - 1))) else none
  | some (.tuples t) =>
      if combi = 1 then none
      else some (.tuples (t.map (fun l => l.map (fun i => i - 1))))

/-- Ascending sort of one data column; pandas quantiles are computed on
the sorted values. -/
def sortData (xs : List ℚ) : List ℚ :=
  List.insertionSort (fun a b => a ≤ b) xs

/-- Linear-interpolation quantile of one data column, as computed by
`pandas.Series.quantile` with the default interpolation: with sorted
values `s` of length `n`, position `q * (n - 1)` is split into integer
part `i` and fractional part `frac`, giving
`s[i] + frac * (s[i+1] - s[i])`. -/
def quantile (q : ℚ) (xs : List ℚ) : ℚ :=
  let s := sortData xs
  let pos := q * ((s.length : ℚ) - 1)
  let i := (Int.floor pos).toNat
  let frac := pos - (i : ℚ)
  s.getD i 0 + frac * (s.getD (i + 1) 0 - s.getD i 0)

/-- The lower outlier bound of `iqr_outlier`:
`quant1 - 1.5 * (quant3 - quant1)` for one column. -/
def lowerBound (col : List ℚ) : ℚ :=
  quantile (1 / 4) col - 3 / 2 * (quantile (3 / 4) col - quantile (1 / 4) col)

/-- The upper outlier bound of `iqr_outlier`:
`quant3 + 1.5 * (quant3 - quant1)` for one column. -/
def upperBound (col : List ℚ) : ℚ :=
  quantile (3 / 4) col + 3 / 2 * (quantile (3 / 4) col - quantile (1 / 4) col)

/-- One column of the boolean frame
`(sub_data < lower) | (sub_data > upper)` of `iqr_outlier`: each value
is flagged when it is strictly below the lower bound or strictly above
the upper bound. -/
def outFlags (col : List ℚ) : List Bool :=
  col.map (fun v => decide (v < lowerBound col) || decide (upperBound col < v))

/-- One entry of the `outliers` dictionary of `iqr_outlier`: the row
indices of the frame whose flag is set, mirroring
`out_of_bounds[out_of_bounds[vari]].index.values` over the default
range index. -/
def outlierRows (col : List ℚ) : List ℕ :=
  (List.range col.length).filter (fun row => (outFlags col).getD row false)

/-- Translation of `iqr_outlier(data, variables)` from
psynlig/common.py.  The selected columns `data[variables]` are
represented as a list of columns of exact rationals.  The result is
the triple `(out_of_bounds, outliers, (upper, lower))` from the
source, with the bounds pair in that order: upper first, lower
second. -/
def iqr_outlier (data : List (List ℚ)) :
    List (List Bool) × List (List ℕ) × (List ℚ × List ℚ) :=
  (data.map outFlags, data.map outlierRows,
    (data.map upperBound, data.map lowerBound))

/-- A matplotlib text label as far as the jiggle engine observes and
mutates it: its position in data coordinates, its horizontal and
vertical alignment, and its background color (absent until set). -/
structure TextLabel where
  pos : ℝ × ℝ
  ha : String
  va : String
  backgroundcolor : Option String

instance : Inhabited TextLabel := ⟨⟨(0, 0), "", "", none⟩⟩

/-- Axis-aligned bounding box of a rendered label, in data coordinates,
as produced by `_get_text_boxes` (corners `(x0, y0)` to `(x1, y1)`). -/
structure Box where
  x0 : ℝ
  y0 : ℝ
  x1 : ℝ
  y1 : ℝ

instance : Inhabited Box := ⟨⟨0, 0, 0, 0⟩⟩

/-- Centroid of a bounding box, as used by
`np.array(box.centroid)` on the rectangle polygon. -/
noncomputable def Box.centroid (b : Box) : ℝ × ℝ :=
  ((b.x0 + b.x1) / 2, (b.y0 + b.y1) / 2)

/-- Shapely `intersects` for two axis-aligned rectangles: the closed
boxes share at least one point, i.e. both coordinate intervals
overlap. -/
def Box.intersects (b1 b2 : Box) : Prop :=
  b1.x0 ≤ b2.x1 ∧ b2.x0 ≤ b1.x1 ∧ b1.y0 ≤ b2.y1 ∧ b2.y0 ≤ b1.y1

noncomputable instance (b1 b2 : Box) : Decidable (b1.intersects b2) :=
  Classical.propDecidable _

/-- Euclidean norm of a 2-vector, `numpy.linalg.norm`. -/
noncomputable def vnorm (v : ℝ × ℝ) : ℝ :=
  Real.sqrt (v.1 ^ 2 + v.2 ^ 2)

/-- The pair scan order of the jiggle engine:
`combinations(range(n), 2)`. -/
def pairsList (n : ℕ) : List (ℕ × ℕ) :=
  (combinations 2 (List.range n)).filterMap fun l =>
    match l with
    | [a, b] => some (a, b)
    | _ => none

/-- The first pair of indices, in scan order, whose bounding boxes
intersect; `none` when no two boxes overlap (the `no_overlap` case of
the source loop). -/
noncomputable def findPair (boxes : List Box) : Option (ℕ × ℕ) :=
  (pairsList boxes.length).find? fun p =>
    decide ((boxes.getD p.1 default).intersects (boxes.getD p.2 default))

/-- The nudge vector of one jiggle step: the centroid difference
`center1 - center2` is divided by its Euclidean norm and the
components are swapped and scaled, `vec = (dist[1] * jiggle_x,
dist[0] * jiggle_y)`.  The division is unguarded in the source; a zero
norm is the division-by-zero condition, modelled as `none`. -/
noncomputable def jiggleVec (jx jy : ℝ) (c1 c2 : ℝ × ℝ) : Option (ℝ × ℝ) :=
  let d : ℝ × ℝ := (c1.1 - c2.1, c1.2 - c2.2)
  let n := vnorm d
  if n = 0 then none
  else some (d.2 / n * jx, d.1 / n * jy)

/-- The body of the overlap branch of the jiggle loop for the pair
`(i, j)`: both labels have their alignment reset to centered and are
repositioned at `center1 + vec` and `center2 - vec`. -/
noncomputable def jiggleStep (jx jy : ℝ) (boxes : List Box)
    (texts : List TextLabel) (i j : ℕ) : Option (List TextLabel) :=
  let c1 := (boxes.getD i default).centroid
  let c2 := (boxes.getD j default).centroid
  match jiggleVec jx jy c1 c2 with
  | none => none
  | some vec =>
      some (((texts.set i
        ⟨(c1.1 + vec.1, c1.2 + vec.2), "center", "center",
          (texts.getD i default).backgroundcolor⟩).set j
        ⟨(c2.1 - vec.1, c2.2 - vec.2), "center", "center",
          (texts.getD j default).backgroundcolor⟩))

/-- The trailing statement of each non-converged iteration: every
label receives a semi-transparent white background. -/
def setBackgrounds (texts : List TextLabel) : List TextLabel :=
  texts.map fun t => ⟨t.pos, t.ha, t.va, some "#ffffffe0"⟩

/-- The iteration loop of `jiggle_text`, with the remaining iteration
budget as fuel.  Each iteration recomputes every bounding box through
the renderer oracle `getBox`, scans the pairs in order, resolves the
first overlapping pair, applies the backgrounds and recurses; a scan
with no overlap ends the loop.  The result carries the number of
iterations executed; `none` propagates the division-by-zero condition
of a zero-distance centroid pair. -/
noncomputable def jiggleLoop (getBox : TextLabel → Box) (jx jy : ℝ) :
    List TextLabel → ℕ → Option (List TextLabel × ℕ)
  | texts, 0 => some (texts, 0)
  | texts, fuel + 1 =>
      let boxes := texts.map getBox
      match findPair boxes with
      | none => some (texts, 1)
      | some (i, j) =>
          (jiggleStep jx jy boxes texts i j).bind fun texts1 =>
            (jiggleLoop getBox jx jy (setBackgrounds texts1) fuel).map
              fun r => (r.1, r.2 + 1)

/-- The jiggle step size along x: 1% of the viewport's x-span,
`(max(xlim) - min(xlim)) * 0.01`. -/
noncomputable def jiggle_x (xlim : ℝ × ℝ) : ℝ :=
  (max xlim.1 xlim.2 - min xlim.1 xlim.2) * (1 / 100)

/-- The jiggle step size along y: 1% of the viewport's y-span,
`(max(ylim) - min(ylim)) * 0.01`. -/
noncomputable def jiggle_y (ylim : ℝ × ℝ) : ℝ :=
  (max ylim.1 ylim.2 - min ylim.1 ylim.2) * (1 / 100)

/-- Translation of `jiggle_text(axi, texts, maxiter)` from
psynlig/common.py.  The axis is represented by its limit pairs
together with the renderer oracle `getBox` that yields the current
bounding box of a label (the role of `_get_text_boxes`). -/
noncomputable def jiggle_text (getBox : TextLabel → Box) (xlim ylim : ℝ × ℝ)
    (texts : List TextLabel) (maxiter : ℕ) : Option (List TextLabel × ℕ) :=
  jiggleLoop getBox (jiggle_x xlim) (jiggle_y ylim) texts maxiter

/-- A concrete renderer oracle used on sample inputs: each label's box
is the side-2 square centered at its stored position, so the box
centroid coincides with the position. -/
def unitBoxAt (t : TextLabel) : Box :=
  ⟨t.pos.1 - 1, t.pos.2 - 1, t.pos.1 + 1, t.pos.2 + 1⟩

/-- A degenerate renderer oracle used on sample inputs: every label is
rendered to the same box, so any two labels overlap and have
coinciding centroids. -/
def constBox : TextLabel → Box :=
  fun _ => ⟨0, 0, 1, 1⟩

/-- The general branch of the solver (both coefficients nonzero)
evaluates the four boundary lines in the order left, bottom, right,
top, and the last accepted candidate overwrites any earlier one: the
result is the top candidate if accepted, otherwise the right one,
otherwise the bottom one, otherwise the left one, otherwise `none`. -/
theorem find_axis_intersection_general (xlim ylim : ℚ × ℚ)
    (xcoeff ycoeff : ℚ) (hx : xcoeff ≠ 0) (hy : ycoeff ≠ 0) :
    find_axis_intersection xlim ylim xcoeff ycoeff =
      (if acceptHoriz xlim xcoeff ycoeff (max ylim.1 ylim.2) then
        some (xcoeff * max ylim.1 ylim.2 / ycoeff, max ylim.1 ylim.2)
      else if acceptVert ylim xcoeff ycoeff (max xlim.1 xlim.2) then
        some (max xlim.1 xlim.2, ycoeff * max xlim.1 xlim.2 / xcoeff)
      else if acceptHoriz xlim xcoeff ycoeff (min ylim.1 ylim.2) then
        some (xcoeff * min ylim.1 ylim.2 / ycoeff, min ylim.1 ylim.2)
      else if acceptVert ylim xcoeff ycoeff (min xlim.1 xlim.2) then
        some (min xlim.1 xlim.2, ycoeff * min xlim.1 xlim.2 / xcoeff)
      else none) := by
  simp only [find_axis_intersection, acceptVert, acceptHoriz]
  rw [if_neg (by simp [hx, hy]), if_neg hx, if_neg hy]

/-- In the general branch, some boundary line is always accepted when
the origin is strictly inside the viewport. -/
theorem accept_exists (xlim ylim : ℚ × ℚ) (xc yc : ℚ)
    (hxm : min xlim.1 xlim.2 < 0) (hxM : 0 < max xlim.1 xlim.2)
    (hym : min ylim.1 ylim.2 < 0) (hyM : 0 < max ylim.1 ylim.2)
    (hx : xc ≠ 0) (hy : yc ≠ 0) :
    acceptVert ylim xc yc (min xlim.1 xlim.2) ∨
    acceptHoriz xlim xc yc (min ylim.1 ylim.2) ∨
    acceptVert ylim xc yc (max xlim.1 xlim.2) ∨
    acceptHoriz xlim xc yc (max ylim.1 ylim.2) := by
  set xm := min xlim.1 xlim.2 with hxmdef
  set xM := max xlim.1 xlim.2 with hxMdef
  set ym := min ylim.1 ylim.2 with hymdef
  set yM := max ylim.1 ylim.2 with hyMdef
  unfold acceptVert acceptHoriz
  rw [← hxmdef, ← hxMdef, ← hymdef, ← hyMdef]
  rcases hx.lt_or_lt with hxneg | hxpos <;> rcases hy.lt_or_lt with hyneg | hypos
  · -- xc < 0, yc < 0: exits left or bottom
    have hyhat1 : yc * xm / xc < 0 := by
      apply div_neg_iff.mpr
      exact Or.inl ⟨mul_pos_of_neg_of_neg hyneg hxm, hxneg⟩
    by_cases h1 : ym ≤ yc * xm / xc
    · refine Or.inl ⟨h1, le_of_lt (hyhat1.trans hyM), ?_⟩
      have ha : 0 < xc * xm := mul_pos_of_neg_of_neg hxneg hxm
      have hb : 0 < yc * (yc * xm / xc) := mul_pos_of_neg_of_neg hyneg hyhat1
      linarith
    · have h1' : yc * xm / xc < ym := lt_of_not_le h1
      have hkey : ym * xc < yc * xm := (div_lt_iff_of_neg hxneg).mp h1'
      have hxhat2 : xc * ym / yc < 0 := by
        apply div_neg_iff.mpr
        exact Or.inl ⟨mul_pos_of_neg_of_neg hxneg hym, hyneg⟩
      refine Or.inr (Or.inl ⟨?_, le_of_lt (hxhat2.trans hxM), ?_⟩)
      · rw [le_div_iff_of_neg hyneg]
        nlinarith
      · have ha : 0 < xc * (xc * ym / yc) := mul_pos_of_neg_of_neg hxneg hxhat2
        have hb : 0 < yc * ym := mul_pos_of_neg_of_neg hyneg hym
        linarith
  · -- xc < 0, yc > 0: exits left or top
    have hyhat1 : 0 < yc * xm / xc :=
      div_pos_iff.mpr (Or.inr ⟨mul_neg_of_pos_of_neg hypos hxm, hxneg⟩)
    by_cases h1 : yc * xm / xc ≤ yM
    · refine Or.inl ⟨le_of_lt (hym.trans hyhat1), h1, ?_⟩
      have ha : 0 < xc * xm := mul_pos_of_neg_of_neg hxneg hxm
      have hb : 0 < yc * (yc * xm / xc) := mul_pos hypos hyhat1
      linarith
    · have h1' : yM < yc * xm / xc := lt_of_not_le h1
      have hkey : yc * xm < yM * xc := (lt_div_iff_of_neg hxneg).mp h1'
      have hxhat4 : xc * yM / yc < 0 :=
        div_neg_iff.mpr (Or.inr ⟨mul_neg_of_neg_of_pos hxneg hyM, hypos⟩)
      refine Or.inr (Or.inr (Or.inr ⟨?_, le_of_lt (hxhat4.trans hxM), ?_⟩))
      · rw [le_div_iff₀ hypos]
        nlinarith
      · have ha : 0 < xc * (xc * yM / yc) := mul_pos_of_neg_of_neg hxneg hxhat4
        have hb : 0 < yc * yM := mul_pos hypos hyM
        linarith
  · -- xc > 0, yc < 0: exits right or bottom
    have hyhat3 : yc * xM / xc < 0 :=
      div_neg_iff.mpr (Or.inr ⟨mul_neg_of_neg_of_pos hyneg hxM, hxpos⟩)
    by_cases h3 : ym ≤ yc * xM / xc
    · refine Or.inr (Or.inr (Or.inl ⟨h3, le_of_lt (hyhat3.trans hyM), ?_⟩))
      have ha : 0 < xc * xM := mul_pos hxpos hxM
      have hb : 0 < yc * (yc * xM / xc) := mul_pos_of_neg_of_neg hyneg hyhat3
      linarith
    · have h3' : yc * xM / xc < ym := lt_of_not_le h3
      have hkey : yc * xM < ym * xc := (div_lt_iff₀ hxpos).mp h3'
      have hxhat2 : 0 < xc * ym / yc :=
        div_pos_iff.mpr (Or.inr ⟨mul_neg_of_pos_of_neg hxpos hym, hyneg⟩)
      refine Or.inr (Or.inl ⟨le_of_lt (hxm.trans hxhat2), ?_, ?_⟩)
      · rw [div_le_iff_of_neg hyneg]
        nlinarith
      · have ha : 0 < xc * (xc * ym / yc) := mul_pos hxpos hxhat2
        have hb : 0 < yc * ym := mul_pos_of_neg_of_neg hyneg hym
        linarith
  · -- xc > 0, yc > 0: exits right or top
    have hyhat3 : 0 < yc * xM / xc := div_pos (mul_pos hypos hxM) hxpos
    by_cases h3 : yc * xM / xc ≤ yM
    · refine Or.inr (Or.inr (Or.inl ⟨le_of_lt (hym.trans hyhat3), h3, ?_⟩))
      have ha : 0 < xc * xM := mul_pos hxpos hxM
      have hb : 0 < yc * (yc * xM / xc) := mul_pos hypos hyhat3
      linarith
    · have h3' : yM < yc * xM / xc := lt_of_not_le h3
      have hkey : yM * xc < yc * xM := (lt_div_iff₀ hxpos).mp h3'
      have hxhat4 : 0 < xc * yM / yc := div_pos (mul_pos hxpos hyM) hypos
      refine Or.inr (Or.inr (Or.inr ⟨le_of_lt (hxm.trans hxhat4), ?_, ?_⟩))
      · rw [div_le_iff₀ hypos]
        nlinarith
      · have ha : 0 < xc * (xc * yM / yc) := mul_pos hxpos hxhat4
        have hb : 0 < yc * yM := mul_pos hypos hyM
        linarith

/-- C7: for every viewport, the zero direction vector makes the
Axis-Intersection Solver return the `(None, None)` sentinel; the
function is total, so no exception is raised. -/
theorem claim_C7_zero_direction (xlim ylim : ℚ × ℚ) :
    find_axis_intersection xlim ylim 0 0 = none := by
  simp [find_axis_intersection]

/-- C6: for every viewport containing the origin, a direction with
`xcoeff = 0` and `ycoeff ≠ 0` yields `xend = 0` and `yend = ymax` when
`ycoeff > 0`, `yend = ymin` when `ycoeff < 0`; and for the square
viewport `(-1, 1, -1, 1)` the direction `(2, 0)` yields `(1, 0)`. -/
theorem claim_C6_axis_aligned (xlim ylim : ℚ × ℚ) (ycoeff : ℚ)
    (_hx0 : min xlim.1 xlim.2 ≤ 0) (_hx1 : 0 ≤ max xlim.1 xlim.2)
    (_hy0 : min ylim.1 ylim.2 ≤ 0) (_hy1 : 0 ≤ max ylim.1 ylim.2)
    (hy : ycoeff ≠ 0) :
    find_axis_intersection xlim ylim 0 ycoeff =
      some (0, if 0 < ycoeff then max ylim.1 ylim.2 else min ylim.1 ylim.2) ∧
    find_axis_intersection (-1, 1) (-1, 1) 2 0 = some (1, 0) := by
  refine ⟨?_, by norm_num [find_axis_intersection, min_def, max_def]⟩
  simp [find_axis_intersection, hy]

/-- Witness for C6 at the square viewport with direction `(0, 3)`. -/
theorem claim_C6_witness :
    find_axis_intersection (-1, 1) (-1, 1) 0 3 =
      some (0, if (0 : ℚ) < 3 then max (-1 : ℚ) 1 else min (-1 : ℚ) 1) ∧
    find_axis_intersection (-1, 1) (-1, 1) 2 0 = some (1, 0) :=
  claim_C6_axis_aligned (-1, 1) (-1, 1) 3 (by norm_num [min_def])
    (by norm_num [max_def]) (by norm_num [min_def]) (by norm_num [max_def])
    (by norm_num)

/-- C2: for the square viewport `(-1, 1, -1, 1)` and direction
`(1, 1)` the solver returns exactly `(1, 1)`; at that corner both the
right and the top boundary lines are accepted; and in general the four
boundary lines are evaluated in the fixed order left, bottom, right,
top with the last accepted candidate overwriting any earlier one. -/
theorem claim_C2_corner_last_accepted (xlim ylim : ℚ × ℚ)
    (xcoeff ycoeff : ℚ) (hx : xcoeff ≠ 0) (hy : ycoeff ≠ 0) :
    find_axis_intersection (-1, 1) (-1, 1) 1 1 = some (1, 1) ∧
    acceptVert (-1, 1) 1 1 1 ∧
    acceptHoriz (-1, 1) 1 1 1 ∧
    find_axis_intersection xlim ylim xcoeff ycoeff =
      (if acceptHoriz xlim xcoeff ycoeff (max ylim.1 ylim.2) then
        some (xcoeff * max ylim.1 ylim.2 / ycoeff, max ylim.1 ylim.2)
      else if acceptVert ylim xcoeff ycoeff (max xlim.1 xlim.2) then
        some (max xlim.1 xlim.2, ycoeff * max xlim.1 xlim.2 / xcoeff)
      else if acceptHoriz xlim xcoeff ycoeff (min ylim.1 ylim.2) then
        some (xcoeff * min ylim.1 ylim.2 / ycoeff, min ylim.1 ylim.2)
      else if acceptVert ylim xcoeff ycoeff (min xlim.1 xlim.2) then
        some (min xlim.1 xlim.2, ycoeff * min xlim.1 xlim.2 / xcoeff)
      else none) :=
  ⟨by norm_num [find_axis_intersection, min_def, max_def],
    by norm_num [acceptVert, min_def, max_def],
    by norm_num [acceptHoriz, min_def, max_def],
    find_axis_intersection_general xlim ylim xcoeff ycoeff hx hy⟩

/-- Witness for C2 at the square viewport with direction `(1, 1)`. -/
theorem claim_C2_witness :
    find_axis_intersection (-1, 1) (-1, 1) 1 1 = some (1, 1) ∧
    acceptVert (-1, 1) 1 1 1 ∧
    acceptHoriz (-1, 1) 1 1 1 ∧
    find_axis_intersection (-1, 1) (-1, 1) 1 1 =
      (if acceptHoriz (-1, 1) 1 1 (max (-1 : ℚ) 1) then
        some (1 * max (-1 : ℚ) 1 / 1, max (-1 : ℚ) 1)
      else if acceptVert (-1, 1) 1 1 (max (-1 : ℚ) 1) then
        some (max (-1 : ℚ) 1, 1 * max (-1 : ℚ) 1 / 1)
      else if acceptHoriz (-1, 1) 1 1 (min (-1 : ℚ) 1) then
        some (1 * min (-1 : ℚ) 1 / 1, min (-1 : ℚ) 1)
      else if acceptVert (-1, 1) 1 1 (min (-1 : ℚ) 1) then
        some (min (-1 : ℚ) 1, 1 * min (-1 : ℚ) 1 / 1)
      else none) :=
  claim_C2_corner_last_accepted (-1, 1) (-1, 1) 1 1 one_ne_zero one_ne_zero

/-- C9: for every viewport with the origin strictly inside and every
direction vector with both coefficients nonzero, the solver never
returns the sentinel: it returns a point within the viewport bounds
lying on one of the four boundary lines. -/
theorem claim_C9_interior_hits_boundary (xlim ylim : ℚ × ℚ)
    (xcoeff ycoeff : ℚ)
    (hxm : min xlim.1 xlim.2 < 0) (hxM : 0 < max xlim.1 xlim.2)
    (hym : min ylim.1 ylim.2 < 0) (hyM : 0 < max ylim.1 ylim.2)
    (hx : xcoeff ≠ 0) (hy : ycoeff ≠ 0) :
    ∃ p : ℚ × ℚ, find_axis_intersection xlim ylim xcoeff ycoeff = some p ∧
      min xlim.1 xlim.2 ≤ p.1 ∧ p.1 ≤ max xlim.1 xlim.2 ∧
      min ylim.1 ylim.2 ≤ p.2 ∧ p.2 ≤ max ylim.1 ylim.2 ∧
      (p.1 = min xlim.1 xlim.2 ∨ p.1 = max xlim.1 xlim.2 ∨
        p.2 = min ylim.1 ylim.2 ∨ p.2 = max ylim.1 ylim.2) := by
  rw [find_axis_intersection_general xlim ylim xcoeff ycoeff hx hy]
  have htot := accept_exists xlim ylim xcoeff ycoeff hxm hxM hym hyM hx hy
  by_cases h4 : acceptHoriz xlim xcoeff ycoeff (max ylim.1 ylim.2)
  · rw [if_pos h4]
    exact ⟨_, rfl, h4.1, h4.2.1, le_of_lt (hym.trans hyM), le_refl _,
      Or.inr (Or.inr (Or.inr rfl))⟩
  · rw [if_neg h4]
    by_cases h3 : acceptVert ylim xcoeff ycoeff (max xlim.1 xlim.2)
    · rw [if_pos h3]
      exact ⟨_, rfl, le_of_lt (hxm.trans hxM), le_refl _, h3.1, h3.2.1,
        Or.inr (Or.inl rfl)⟩
    · rw [if_neg h3]
      by_cases h2 : acceptHoriz xlim xcoeff ycoeff (min ylim.1 ylim.2)
      · rw [if_pos h2]
        exact ⟨_, rfl, h2.1, h2.2.1, le_refl _, le_of_lt (hym.trans hyM),
          Or.inr (Or.inr (Or.inl rfl))⟩
      · rw [if_neg h2]
        by_cases h1 : acceptVert ylim xcoeff ycoeff (min xlim.1 xlim.2)
        · rw [if_pos h1]
          exact ⟨_, rfl, le_refl _, le_of_lt (hxm.trans hxM), h1.1, h1.2.1,
            Or.inl rfl⟩
        · rcases htot with h | h | h | h
          exacts [absurd h h1, absurd h h2, absurd h h3, absurd h h4]

/-- Witness for C9 at the square viewport with direction `(1, 2)`. -/
theorem claim_C9_witness :
    ∃ p : ℚ × ℚ, find_axis_intersection (-1, 1) (-1, 1) 1 2 = some p ∧
      min (-1 : ℚ) 1 ≤ p.1 ∧ p.1 ≤ max (-1 : ℚ) 1 ∧
      min (-1 : ℚ) 1 ≤ p.2 ∧ p.2 ≤ max (-1 : ℚ) 1 ∧
      (p.1 = min (-1 : ℚ) 1 ∨ p.1 = max (-1 : ℚ) 1 ∨
        p.2 = min (-1 : ℚ) 1 ∨ p.2 = max (-1 : ℚ) 1) :=
  claim_C9_interior_hits_boundary (-1, 1) (-1, 1) 1 2
    (by norm_num [min_def]) (by norm_num [max_def]) (by norm_num [min_def])
    (by norm_num [max_def]) (by norm_num) (by norm_num)

/-- Membership characterisation of `combinations`: the emitted lists
are exactly the length-`r` subsequences of the input. -/
theorem mem_combinations_iff {α : Type} :
    ∀ (r : ℕ) (xs l : List α),
      l ∈ combinations r xs ↔ l.length = r ∧ l.Sublist xs := by
  intro r xs
  induction xs generalizing r with
  | nil =>
    intro l
    cases r with
    | zero =>
      simp [combinations, List.length_eq_zero, eq_comm]
    | succ r =>
      simp only [combinations, List.not_mem_nil, false_iff, not_and]
      intro hlen hsub
      rw [List.sublist_nil.mp hsub] at hlen
      simp at hlen
  | cons x xs ih =>
    intro l
    cases r with
    | zero =>
      simp only [combinations, List.mem_singleton]
      constructor
      · rintro rfl
        exact ⟨rfl, List.nil_sublist _⟩
      · rintro ⟨hlen, _⟩
        exact List.length_eq_zero.mp hlen
    | succ r =>
      simp only [combinations, List.mem_append, List.mem_map]
      constructor
      · rintro (⟨l', hl', rfl⟩ | h)
        · obtain ⟨hlen, hsub⟩ := (ih r l').1 hl'
          exact ⟨by simp [hlen], List.cons_sublist_cons.mpr hsub⟩
        · obtain ⟨hlen, hsub⟩ := (ih (r + 1) l).1 h
          exact ⟨hlen, hsub.cons x⟩
      · rintro ⟨hlen, hsub⟩
        rcases List.sublist_cons_iff.mp hsub with h | ⟨t, rfl, ht⟩
        · exact Or.inr ((ih (r + 1) l).2 ⟨hlen, h⟩)
        · exact Or.inl ⟨t, (ih r t).2 ⟨by simpa using hlen, ht⟩, rfl⟩

/-- On a strictly increasing input, `combinations` emits its lists in
strictly increasing lexicographic order. -/
theorem combinations_pairwise_lex :
    ∀ (xs : List ℕ), xs.Pairwise (· < ·) →
      ∀ r, (combinations r xs).Pairwise (List.Lex (· < ·)) := by
  intro xs
  induction xs with
  | nil =>
    intro _ r
    cases r <;> simp [combinations]
  | cons x xs ih =>
    intro hp r
    rw [List.pairwise_cons] at hp
    obtain ⟨hx, hxs⟩ := hp
    cases r with
    | zero => simp [combinations]
    | succ r =>
      simp only [combinations]
      apply List.pairwise_append.mpr
      refine ⟨?_, ih hxs (r + 1), ?_⟩
      · apply List.pairwise_map.mpr
        exact (ih hxs r).imp fun h => List.Lex.cons h
      · intro a ha b hb
        obtain ⟨l', _, rfl⟩ := List.mem_map.mp ha
        obtain ⟨hlen, hsub⟩ := (mem_combinations_iff (r + 1) xs b).1 hb
        cases b with
        | nil => simp at hlen
        | cons y t =>
          exact List.Lex.rel (hx y (hsub.subset (List.mem_cons_self y t)))

/-- C8: with four components, arity two and no explicit selection the
Component Selector yields exactly the six zero-based pairs `(0,1)`,
`(0,2)`, `(0,3)`, `(1,2)`, `(1,3)`, `(2,3)` in that order; in general,
with no explicit selection it yields `combinations` of the requested
arity over `range(components)`, whose output is lexicographically
sorted and consists of exactly the length-`r` subsequences of the
range. -/
theorem claim_C8_selector_combinations :
    get_selector 4 none 2 =
      some (.tuples [[0, 1], [0, 2], [0, 3], [1, 2], [1, 3], [2, 3]]) ∧
    (∀ n r, r ≠ 1 → get_selector n none r =
      some (.tuples ((combinations r (List.range n)).map
        (fun l => l.map Int.ofNat)))) ∧
    (∀ n r, (combinations r (List.range n)).Pairwise (List.Lex (· < ·))) ∧
    (∀ (n r : ℕ) (l : List ℕ), l ∈ combinations r (List.range n) ↔
      l.length = r ∧ l.Sublist (List.range n)) := by
  refine ⟨by decide, fun n r hr => ?_, fun n r => ?_, fun n r l => ?_⟩
  · simp [get_selector, hr]
  · exact combinations_pairwise_lex (List.range n) (List.pairwise_lt_range n) r
  · exact mem_combinations_iff r (List.range n) l

/-- Witness for C8: the general clause instantiated at four components
and arity two. -/
theorem claim_C8_witness :
    get_selector 4 none 2 =
      some (.tuples ((combinations 2 (List.range 4)).map
        (fun l => l.map Int.ofNat))) :=
  claim_C8_selector_combinations.2.1 4 2 (by norm_num)

/-- Reading a mapped list at a valid index yields the image of the
underlying entry, for any defaults. -/
theorem getD_map_getD {α β : Type} (f : α → β) (l : List α) (i : ℕ)
    (hi : i < l.length) (d : β) (e : α) :
    (l.map f).getD i d = f (l.getD i e) := by
  rw [List.getD_eq_getElem?_getD, List.getElem?_map, List.getD_eq_getElem?_getD,
    List.getElem?_eq_getElem hi]
  simp

/-- The flag of a row is set exactly when the value is strictly below
the lower bound or strictly above the upper bound. -/
theorem outFlags_getD (col : List ℚ) (row : ℕ) (hrow : row < col.length) :
    (outFlags col).getD row false = true ↔
      (col.getD row 0 < lowerBound col ∨ upperBound col < col.getD row 0) := by
  unfold outFlags
  rw [getD_map_getD _ col row hrow false (0 : ℚ)]
  simp

/-- The outlier index list of a column holds exactly the flagged
rows. -/
theorem mem_outlierRows (col : List ℚ) (row : ℕ) :
    row ∈ outlierRows col ↔
      row < col.length ∧
        (col.getD row 0 < lowerBound col ∨ upperBound col < col.getD row 0) := by
  unfold outlierRows
  rw [List.mem_filter, List.mem_range]
  exact and_congr_right fun hrow => by rw [outFlags_getD col row hrow]

/-- C10: the interquartile-range detector flags a value if and only if
it is strictly below `Q1 - 1.5 IQR` or strictly above `Q3 + 1.5 IQR`
with `Q1`, `Q3` the 0.25 and 0.75 quantiles of the variable; the
returned bounds pair is ordered upper first, lower second; and the
per-variable outlier index list holds exactly the flagged rows. -/
theorem claim_C10_iqr_outlier (data : List (List ℚ)) (i row : ℕ)
    (hi : i < data.length) :
    (row ∈ (iqr_outlier data).2.1.getD i [] ↔
      row < (data.getD i []).length ∧
        ((data.getD i []).getD row 0 < quantile (1 / 4) (data.getD i []) -
            3 / 2 * (quantile (3 / 4) (data.getD i []) -
              quantile (1 / 4) (data.getD i [])) ∨
          quantile (3 / 4) (data.getD i []) +
              3 / 2 * (quantile (3 / 4) (data.getD i []) -
                quantile (1 / 4) (data.getD i [])) <
            (data.getD i []).getD row 0)) ∧
    (iqr_outlier data).2.2.1.getD i 0 =
      quantile (3 / 4) (data.getD i []) +
        3 / 2 * (quantile (3 / 4) (data.getD i []) -
          quantile (1 / 4) (data.getD i [])) ∧
    (iqr_outlier data).2.2.2.getD i 0 =
      quantile (1 / 4) (data.getD i []) -
        3 / 2 * (quantile (3 / 4) (data.getD i []) -
          quantile (1 / 4) (data.getD i [])) ∧
    (row < (data.getD i []).length →
      (((iqr_outlier data).1.getD i []).getD row false = true ↔
        ((data.getD i []).getD row 0 < quantile (1 / 4) (data.getD i []) -
            3 / 2 * (quantile (3 / 4) (data.getD i []) -
              quantile (1 / 4) (data.getD i [])) ∨
          quantile (3 / 4) (data.getD i []) +
              3 / 2 * (quantile (3 / 4) (data.getD i []) -
                quantile (1 / 4) (data.getD i [])) <
            (data.getD i []).getD row 0))) := by
  have hout : (iqr_outlier data).2.1.getD i [] = outlierRows (data.getD i []) :=
    getD_map_getD outlierRows data i hi [] []
  have hup : (iqr_outlier data).2.2.1.getD i 0 = upperBound (data.getD i []) :=
    getD_map_getD upperBound data i hi 0 []
  have hlo : (iqr_outlier data).2.2.2.getD i 0 = lowerBound (data.getD i []) :=
    getD_map_getD lowerBound data i hi 0 []
  have hfl : (iqr_outlier data).1.getD i [] = outFlags (data.getD i []) :=
    getD_map_getD outFlags data i hi [] []
  refine ⟨?_, ?_, ?_, ?_⟩
  · rw [hout, mem_outlierRows]
    rfl
  · rw [hup]
    rfl
  · rw [hlo]
    rfl
  · intro hrow
    rw [hfl, outFlags_getD (data.getD i []) row hrow]
    rfl

/-- Witness for C10 on the single column `[1, 2, 3, 4, 100]`, read at
row 4. -/
theorem claim_C10_witness :
    0 < ([[1, 2, 3, 4, 100]] : List (List ℚ)).length ∧
    ((4 ∈ (iqr_outlier [[1, 2, 3, 4, 100]]).2.1.getD 0 [] ↔
      4 < (([[1, 2, 3, 4, 100]] : List (List ℚ)).getD 0 []).length ∧
        ((([[1, 2, 3, 4, 100]] : List (List ℚ)).getD 0 []).getD 4 0 <
            quantile (1 / 4) (([[1, 2, 3, 4, 100]] : List (List ℚ)).getD 0 []) -
            3 / 2 * (quantile (3 / 4)
                (([[1, 2, 3, 4, 100]] : List (List ℚ)).getD 0 []) -
              quantile (1 / 4)
                (([[1, 2, 3, 4, 100]] : List (List ℚ)).getD 0 [])) ∨
          quantile (3 / 4) (([[1, 2, 3, 4, 100]] : List (List ℚ)).getD 0 []) +
              3 / 2 * (quantile (3 / 4)
                  (([[1, 2, 3, 4, 100]] : List (List ℚ)).getD 0 []) -
                quantile (1 / 4)
                  (([[1, 2, 3, 4, 100]] : List (List ℚ)).getD 0 [])) <
            (([[1, 2, 3, 4, 100]] : List (List ℚ)).getD 0 []).getD 4 0)) ∧
    (iqr_outlier [[1, 2, 3, 4, 100]]).2.2.1.getD 0 0 =
      quantile (3 / 4) (([[1, 2, 3, 4, 100]] : List (List ℚ)).getD 0 []) +
        3 / 2 * (quantile (3 / 4)
            (([[1, 2, 3, 4, 100]] : List (List ℚ)).getD 0 []) -
          quantile (1 / 4)
            (([[1, 2, 3, 4, 100]] : List (List ℚ)).getD 0 [])) ∧
    (iqr_outlier [[1, 2, 3, 4, 100]]).2.2.2.getD 0 0 =
      quantile (1 / 4) (([[1, 2, 3, 4, 100]] : List (List ℚ)).getD 0 []) -
        3 / 2 * (quantile (3 / 4)
            (([[1, 2, 3, 4, 100]] : List (List ℚ)).getD 0 []) -
          quantile (1 / 4)
            (([[1, 2, 3, 4, 100]] : List (List ℚ)).getD 0 [])) ∧
    (4 < (([[1, 2, 3, 4, 100]] : List (List ℚ)).getD 0 []).length →
      (((iqr_outlier [[1, 2, 3, 4, 100]]).1.getD 0 []).getD 4 false = true ↔
        ((([[1, 2, 3, 4, 100]] : List (List ℚ)).getD 0 []).getD 4 0 <
            quantile (1 / 4) (([[1, 2, 3, 4, 100]] : List (List ℚ)).getD 0 []) -
            3 / 2 * (quantile (3 / 4)
                (([[1, 2, 3, 4, 100]] : List (List ℚ)).getD 0 []) -
              quantile (1 / 4)
                (([[1, 2, 3, 4, 100]] : List (List ℚ)).getD 0 [])) ∨
          quantile (3 / 4) (([[1, 2, 3, 4, 100]] : List (List ℚ)).getD 0 []) +
              3 / 2 * (quantile (3 / 4)
                  (([[1, 2, 3, 4, 100]] : List (List ℚ)).getD 0 []) -
                quantile (1 / 4)
                  (([[1, 2, 3, 4, 100]] : List (List ℚ)).getD 0 [])) <
            (([[1, 2, 3, 4, 100]] : List (List ℚ)).getD 0 []).getD 4 0)))) :=
  ⟨by norm_num, claim_C10_iqr_outlier [[1, 2, 3, 4, 100]] 0 4 (by norm_num)⟩

/-- With exactly two boxes, the scan inspects the single pair `(0, 1)`
and reports it exactly when the boxes intersect. -/
theorem findPair_pair (b0 b1 : Box) :
    findPair [b0, b1] = if b0.intersects b1 then some (0, 1) else none := by
  unfold findPair
  rw [show ([b0, b1] : List Box).length = 2 from rfl,
    show pairsList 2 = [(0, 1)] from by decide]
  by_cases h : b0.intersects b1 <;> simp [List.find?, h]

/-- An iteration whose pairwise scan finds no intersecting pair ends
the loop at once, leaving the labels untouched, after exactly one
iteration. -/
theorem jiggleLoop_converged (getBox : TextLabel → Box) (jx jy : ℝ)
    (texts : List TextLabel) (fuel : ℕ)
    (h : findPair (texts.map getBox) = none) :
    jiggleLoop getBox jx jy texts (fuel + 1) = some (texts, 1) := by
  simp only [jiggleLoop]
  rw [h]

/-- An iteration whose scan reports the pair `(i, j)` resolves that
pair, applies the backgrounds and recurses, with the iteration count
increased by one; a failing step propagates. -/
theorem jiggleLoop_step (getBox : TextLabel → Box) (jx jy : ℝ)
    (texts : List TextLabel) (fuel i j : ℕ)
    (hfp : findPair (texts.map getBox) = some (i, j)) :
    jiggleLoop getBox jx jy texts (fuel + 1) =
      (jiggleStep jx jy (texts.map getBox) texts i j).bind fun texts1 =>
        (jiggleLoop getBox jx jy (setBackgrounds texts1) fuel).map
          fun r => (r.1, r.2 + 1) := by
  simp only [jiggleLoop]
  rw [hfp]

/-- The iteration count of the jiggle loop never exceeds the fuel. -/
theorem jiggleLoop_iters_le (getBox : TextLabel → Box) (jx jy : ℝ) :
    ∀ (fuel : ℕ) (texts res : List TextLabel) (n : ℕ),
      jiggleLoop getBox jx jy texts fuel = some (res, n) → n ≤ fuel := by
  intro fuel
  induction fuel with
  | zero =>
    intro texts res n h
    simp only [jiggleLoop, Option.some.injEq, Prod.mk.injEq] at h
    omega
  | succ fuel ih =>
    intro texts res n h
    cases hfp : findPair (texts.map getBox) with
    | none =>
      rw [jiggleLoop_converged getBox jx jy texts fuel hfp] at h
      simp only [Option.some.injEq, Prod.mk.injEq] at h
      omega
    | some p =>
      obtain ⟨i, j⟩ := p
      rw [jiggleLoop_step getBox jx jy texts fuel i j hfp] at h
      cases hst : jiggleStep jx jy (texts.map getBox) texts i j with
      | none => rw [hst] at h; simp at h
      | some texts1 =>
        rw [hst] at h
        simp only [Option.some_bind] at h
        cases hlp : jiggleLoop getBox jx jy (setBackgrounds texts1) fuel with
        | none => rw [hlp] at h; simp at h
        | some q =>
          obtain ⟨res1, m⟩ := q
          rw [hlp] at h
          simp only [Option.map_some', Option.some.injEq, Prod.mk.injEq] at h
          have := ih (setBackgrounds texts1) res1 m hlp
          omega

/-- Normalizing the zero vector between two coinciding centroids is
the unguarded division by zero of the jiggle step. -/
theorem jiggleVec_self (jx jy : ℝ) (c : ℝ × ℝ) :
    jiggleVec jx jy c c = none := by
  simp [jiggleVec, vnorm]

/-- C3: two labels whose bounding boxes do not intersect are left
completely unchanged (positions, alignment and background untouched)
and the engine ends after exactly one iteration, for any budget of at
least one. -/
theorem claim_C3_disjoint_pair_untouched (getBox : TextLabel → Box)
    (xlim ylim : ℝ × ℝ) (t0 t1 : TextLabel) (maxiter : ℕ)
    (hmax : 1 ≤ maxiter)
    (hdisj : ¬ (getBox t0).intersects (getBox t1)) :
    jiggle_text getBox xlim ylim [t0, t1] maxiter = some ([t0, t1], 1) := by
  obtain ⟨k, rfl⟩ : ∃ k, maxiter = k + 1 := ⟨maxiter - 1, by omega⟩
  unfold jiggle_text
  apply jiggleLoop_converged
  rw [show ([t0, t1] : List TextLabel).map getBox = [getBox t0, getBox t1]
    from rfl]
  rw [findPair_pair]
  exact if_neg hdisj

/-- Witness for C3: two unit boxes far apart, budget 5. -/
theorem claim_C3_witness :
    jiggle_text unitBoxAt (0, 1) (0, 1)
      [⟨(0, 0), "left", "bottom", none⟩, ⟨(10, 10), "left", "bottom", none⟩]
      5 =
      some ([⟨(0, 0), "left", "bottom", none⟩,
        ⟨(10, 10), "left", "bottom", none⟩], 1) :=
  claim_C3_disjoint_pair_untouched unitBoxAt (0, 1) (0, 1)
    ⟨(0, 0), "left", "bottom", none⟩ ⟨(10, 10), "left", "bottom", none⟩ 5
    (by norm_num) (by norm_num [unitBoxAt, Box.intersects])

/-- C4: the engine runs at most `maxiter` iterations; a scan with zero
intersecting pairs stops it (converged) at that iteration; and budget
exhaustion returns normally rather than raising an error. -/
theorem claim_C4_bounded_iterations (getBox : TextLabel → Box)
    (xlim ylim : ℝ × ℝ) (texts : List TextLabel) (maxiter : ℕ) :
    (∀ res n, jiggle_text getBox xlim ylim texts maxiter = some (res, n) →
      n ≤ maxiter) ∧
    (1 ≤ maxiter → findPair (texts.map getBox) = none →
      jiggle_text getBox xlim ylim texts maxiter = some (texts, 1)) ∧
    jiggle_text getBox xlim ylim texts 0 = some (texts, 0) := by
  refine ⟨fun res n h => jiggleLoop_iters_le getBox (jiggle_x xlim)
    (jiggle_y ylim) maxiter texts res n h, fun hmax hconv => ?_, rfl⟩
  obtain ⟨k, rfl⟩ : ∃ k, maxiter = k + 1 := ⟨maxiter - 1, by omega⟩
  exact jiggleLoop_converged getBox (jiggle_x xlim) (jiggle_y ylim) texts k
    hconv

/-- Witness for C4 on the empty label list with budgets 3 and 0. -/
theorem claim_C4_witness :
    jiggle_text unitBoxAt (0, 1) (0, 1) [] 3 = some ([], 1) ∧
    jiggle_text unitBoxAt (0, 1) (0, 1) [] 0 = some ([], 0) :=
  ⟨(claim_C4_bounded_iterations unitBoxAt (0, 1) (0, 1) [] 3).2.1
      (by norm_num) rfl,
    (claim_C4_bounded_iterations unitBoxAt (0, 1) (0, 1) [] 0).2.2⟩

/-- C5: two intersecting labels whose box centroids coincide exactly
drive the engine into the unguarded zero-vector normalization: the
division-by-zero condition propagates out of the call. -/
theorem claim_C5_zero_distance_centroids (getBox : TextLabel → Box)
    (xlim ylim : ℝ × ℝ) (t0 t1 : TextLabel) (maxiter : ℕ)
    (hmax : 1 ≤ maxiter)
    (hint : (getBox t0).intersects (getBox t1))
    (hcen : (getBox t0).centroid = (getBox t1).centroid) :
    (∀ jx jy : ℝ, ∀ c : ℝ × ℝ, jiggleVec jx jy c c = none) ∧
    jiggle_text getBox xlim ylim [t0, t1] maxiter = none := by
  refine ⟨fun jx jy c => jiggleVec_self jx jy c, ?_⟩
  obtain ⟨k, rfl⟩ : ∃ k, maxiter = k + 1 := ⟨maxiter - 1, by omega⟩
  unfold jiggle_text
  have hfp : findPair (([t0, t1] : List TextLabel).map getBox) =
      some (0, 1) := by
    rw [show ([t0, t1] : List TextLabel).map getBox = [getBox t0, getBox t1]
      from rfl]
    rw [findPair_pair]
    exact if_pos hint
  rw [jiggleLoop_step getBox (jiggle_x xlim) (jiggle_y ylim) [t0, t1] k 0 1
    hfp]
  have hstep : jiggleStep (jiggle_x xlim) (jiggle_y ylim)
      (([t0, t1] : List TextLabel).map getBox) [t0, t1] 0 1 = none := by
    simp only [jiggleStep]
    rw [show (([t0, t1] : List TextLabel).map getBox).getD 0 default =
      getBox t0 from rfl]
    rw [show (([t0, t1] : List TextLabel).map getBox).getD 1 default =
      getBox t1 from rfl]
    rw [hcen, jiggleVec_self]
  rw [hstep]
  rfl

/-- Witness for C5: two labels rendered to the same box. -/
theorem claim_C5_witness :
    (∀ jx jy : ℝ, ∀ c : ℝ × ℝ, jiggleVec jx jy c c = none) ∧
    jiggle_text constBox (0, 1) (0, 1)
      [⟨(0, 0), "left", "bottom", none⟩, ⟨(5, 5), "left", "bottom", none⟩]
      2 = none :=
  claim_C5_zero_distance_centroids constBox (0, 1) (0, 1)
    ⟨(0, 0), "left", "bottom", none⟩ ⟨(5, 5), "left", "bottom", none⟩ 2
    (by norm_num) (by norm_num [constBox, Box.intersects]) rfl

/-- For distinct centroids the normalization succeeds and the nudge
vector swaps the components of the normalized centroid difference —
without any sign flip — scaling them by the two step sizes. -/
theorem jiggleVec_of_ne (jx jy : ℝ) (a b : ℝ × ℝ) (hab : a ≠ b) :
    jiggleVec jx jy a b =
      some ((a.2 - b.2) / vnorm (a.1 - b.1, a.2 - b.2) * jx,
        (a.1 - b.1) / vnorm (a.1 - b.1, a.2 - b.2) * jy) := by
  have h1 : a.1 - b.1 ≠ 0 ∨ a.2 - b.2 ≠ 0 := by
    by_contra hcon
    push_neg at hcon
    exact hab (Prod.ext_iff.mpr ⟨by linarith [hcon.1], by linarith [hcon.2]⟩)
  have h2 : 0 < (a.1 - b.1) ^ 2 + (a.2 - b.2) ^ 2 := by
    rcases h1 with h | h
    · have hp : (a.1 - b.1) ^ 2 ≠ 0 := pow_ne_zero 2 h
      have hq := sq_nonneg (a.1 - b.1)
      have hr := sq_nonneg (a.2 - b.2)
      have : 0 < (a.1 - b.1) ^ 2 := lt_of_le_of_ne hq (Ne.symm hp)
      linarith
    · have hp : (a.2 - b.2) ^ 2 ≠ 0 := pow_ne_zero 2 h
      have hq := sq_nonneg (a.1 - b.1)
      have hr := sq_nonneg (a.2 - b.2)
      have : 0 < (a.2 - b.2) ^ 2 := lt_of_le_of_ne hr (Ne.symm hp)
      linarith
  have hn : vnorm (a.1 - b.1, a.2 - b.2) ≠ 0 :=
    ne_of_gt (Real.sqrt_pos.mpr h2)
  simp only [jiggleVec]
  rw [if_neg hn]

/-- C1 (amended): on the first intersecting pair in scan order with
distinct centroids, the nudge is the normalized centroid difference
with its components swapped — not sign-flipped, so it is a reflection,
not a 90-degree rotation — scaled by `(jiggle_x, jiggle_y)` where each
step is 1% of the corresponding viewport span, and the two labels are
re-centered and placed at `centroid1 + nudge` and `centroid2 -
nudge`. -/
theorem claim_C1_swap_without_flip (getBox : TextLabel → Box)
    (xlim ylim : ℝ × ℝ) (texts : List TextLabel) (i j : ℕ) (c1 c2 : ℝ × ℝ)
    (_hfp : findPair (texts.map getBox) = some (i, j))
    (hc1 : c1 = ((texts.map getBox).getD i default).centroid)
    (hc2 : c2 = ((texts.map getBox).getD j default).centroid)
    (hne : c1 ≠ c2) :
    jiggle_x xlim = (max xlim.1 xlim.2 - min xlim.1 xlim.2) * (1 / 100) ∧
    jiggle_y ylim = (max ylim.1 ylim.2 - min ylim.1 ylim.2) * (1 / 100) ∧
    jiggleStep (jiggle_x xlim) (jiggle_y ylim) (texts.map getBox) texts i j =
      some ((texts.set i
        ⟨(c1.1 + (c1.2 - c2.2) / vnorm (c1.1 - c2.1, c1.2 - c2.2) *
            jiggle_x xlim,
          c1.2 + (c1.1 - c2.1) / vnorm (c1.1 - c2.1, c1.2 - c2.2) *
            jiggle_y ylim), "center", "center",
          (texts.getD i default).backgroundcolor⟩).set j
        ⟨(c2.1 - (c1.2 - c2.2) / vnorm (c1.1 - c2.1, c1.2 - c2.2) *
            jiggle_x xlim,
          c2.2 - (c1.1 - c2.1) / vnorm (c1.1 - c2.1, c1.2 - c2.2) *
            jiggle_y ylim), "center", "center",
          (texts.getD j default).backgroundcolor⟩) := by
  subst hc1
  subst hc2
  refine ⟨rfl, rfl, ?_⟩
  simp only [jiggleStep]
  rw [jiggleVec_of_ne (jiggle_x xlim) (jiggle_y ylim) _ _ hne]

/-- Witness for the amended C1: two overlapping unit boxes whose
centroid difference is `(3/10, 2/5)`, of norm `1/2`. -/
theorem claim_C1_witness :
    jiggle_x (0, 1) = (max (0 : ℝ) 1 - min (0 : ℝ) 1) * (1 / 100) ∧
    jiggle_y (0, 1) = (max (0 : ℝ) 1 - min (0 : ℝ) 1) * (1 / 100) ∧
    jiggleStep (jiggle_x (0, 1)) (jiggle_y (0, 1))
      (([⟨((3 : ℝ)/10, (2 : ℝ)/5), "left", "bottom", none⟩,
        ⟨(0, 0), "left", "bottom", none⟩] : List TextLabel).map unitBoxAt)
      [⟨((3 : ℝ)/10, (2 : ℝ)/5), "left", "bottom", none⟩,
        ⟨(0, 0), "left", "bottom", none⟩] 0 1 =
      some ((([⟨((3 : ℝ)/10, (2 : ℝ)/5), "left", "bottom", none⟩,
          ⟨(0, 0), "left", "bottom", none⟩] : List TextLabel).set 0
        ⟨((3 : ℝ)/10 + ((2 : ℝ)/5 - 0) /
              vnorm ((3 : ℝ)/10 - 0, (2 : ℝ)/5 - 0) * jiggle_x (0, 1),
          (2 : ℝ)/5 + ((3 : ℝ)/10 - 0) /
              vnorm ((3 : ℝ)/10 - 0, (2 : ℝ)/5 - 0) * jiggle_y (0, 1)),
          "center", "center", none⟩).set 1
        ⟨((0 : ℝ) - ((2 : ℝ)/5 - 0) /
              vnorm ((3 : ℝ)/10 - 0, (2 : ℝ)/5 - 0) * jiggle_x (0, 1),
          (0 : ℝ) - ((3 : ℝ)/10 - 0) /
              vnorm ((3 : ℝ)/10 - 0, (2 : ℝ)/5 - 0) * jiggle_y (0, 1)),
          "center", "center", none⟩) :=
  claim_C1_swap_without_flip unitBoxAt (0, 1) (0, 1)
    [⟨((3 : ℝ)/10, (2 : ℝ)/5), "left", "bottom", none⟩,
      ⟨(0, 0), "left", "bottom", none⟩] 0 1
    ((3 : ℝ)/10, (2 : ℝ)/5) (0, 0)
    (by
      rw [show ([⟨((3 : ℝ)/10, (2 : ℝ)/5), "left", "bottom", none⟩,
        ⟨(0, 0), "left", "bottom", none⟩] : List TextLabel).map unitBoxAt =
        [unitBoxAt ⟨((3 : ℝ)/10, (2 : ℝ)/5), "left", "bottom", none⟩,
          unitBoxAt ⟨(0, 0), "left", "bottom", none⟩] from rfl]
      rw [findPair_pair]
      exact if_pos (by norm_num [unitBoxAt, Box.intersects]))
    (by norm_num [unitBoxAt, Box.centroid, Prod.ext_iff])
    (by norm_num [unitBoxAt, Box.centroid, Prod.ext_iff])
    (by norm_num [Prod.ext_iff])

/-- Counterexample to C1 as stated: on two overlapping unit boxes with
centroid difference `(3/10, 2/5)` (norm `1/2`) in the unit viewport,
one engine iteration moves label 0 to `(77/250, 203/500)` — that is,
centroid plus the swapped, un-flipped nudge `(4/500, 3/500)` — which
differs from every position predicted by a swap-and-sign-flip
(90-degree-rotation) nudge, whichever component the sign flip hits. -/
theorem claim_C1_counterexample :
    (jiggle_text unitBoxAt (0, 1) (0, 1)
        [⟨((3 : ℝ)/10, (2 : ℝ)/5), "left", "bottom", none⟩,
          ⟨(0, 0), "left", "bottom", none⟩] 1).map
      (fun r => ((r.1.getD 0 default).pos, r.2)) =
      some (((77 : ℝ)/250, (203 : ℝ)/500), 1) ∧
    ((77 : ℝ)/250, (203 : ℝ)/500) ≠
      ((3 : ℝ)/10 + -(((2 : ℝ)/5 - 0) /
          vnorm ((3 : ℝ)/10 - 0, (2 : ℝ)/5 - 0) * jiggle_x (0, 1)),
        (2 : ℝ)/5 + ((3 : ℝ)/10 - 0) /
          vnorm ((3 : ℝ)/10 - 0, (2 : ℝ)/5 - 0) * jiggle_y (0, 1)) ∧
    ((77 : ℝ)/250, (203 : ℝ)/500) ≠
      ((3 : ℝ)/10 + ((2 : ℝ)/5 - 0) /
          vnorm ((3 : ℝ)/10 - 0, (2 : ℝ)/5 - 0) * jiggle_x (0, 1),
        (2 : ℝ)/5 + -(((3 : ℝ)/10 - 0) /
          vnorm ((3 : ℝ)/10 - 0, (2 : ℝ)/5 - 0) * jiggle_y (0, 1))) ∧
    ((77 : ℝ)/250, (203 : ℝ)/500) ≠
      ((3 : ℝ)/10 + -(((2 : ℝ)/5 - 0) /
          vnorm ((3 : ℝ)/10 - 0, (2 : ℝ)/5 - 0) * jiggle_x (0, 1)),
        (2 : ℝ)/5 + -(((3 : ℝ)/10 - 0) /
          vnorm ((3 : ℝ)/10 - 0, (2 : ℝ)/5 - 0) * jiggle_y (0, 1))) := by
  have hnorm : vnorm ((3 : ℝ)/10 - 0, (2 : ℝ)/5 - 0) = 1/2 := by
    unfold vnorm
    rw [show ((3 : ℝ)/10 - 0, (2 : ℝ)/5 - 0).1 ^ 2 +
      ((3 : ℝ)/10 - 0, (2 : ℝ)/5 - 0).2 ^ 2 = ((1 : ℝ)/2) ^ 2 by norm_num]
    exact Real.sqrt_sq (by norm_num)
  have hjx : jiggle_x (0, 1) = 1/100 := by
    norm_num [jiggle_x, min_def, max_def]
  have hjy : jiggle_y (0, 1) = 1/100 := by
    norm_num [jiggle_y, min_def, max_def]
  refine ⟨?_, by rw [hnorm, hjx, hjy]; norm_num [Prod.ext_iff],
    by rw [hnorm, hjx, hjy]; norm_num [Prod.ext_iff],
    by rw [hnorm, hjx, hjy]; norm_num [Prod.ext_iff]⟩
  have hfp : findPair (([⟨((3 : ℝ)/10, (2 : ℝ)/5), "left", "bottom", none⟩,
      ⟨(0, 0), "left", "bottom", none⟩] : List TextLabel).map unitBoxAt) =
      some (0, 1) := by
    rw [show ([⟨((3 : ℝ)/10, (2 : ℝ)/5), "left", "bottom", none⟩,
      ⟨(0, 0), "left", "bottom", none⟩] : List TextLabel).map unitBoxAt =
      [unitBoxAt ⟨((3 : ℝ)/10, (2 : ℝ)/5), "left", "bottom", none⟩,
        unitBoxAt ⟨(0, 0), "left", "bottom", none⟩] from rfl]
    rw [findPair_pair]
    exact if_pos (by norm_num [unitBoxAt, Box.intersects])
  have hstep : jiggleStep (jiggle_x (0, 1)) (jiggle_y (0, 1))
      (([⟨((3 : ℝ)/10, (2 : ℝ)/5), "left", "bottom", none⟩,
        ⟨(0, 0), "left", "bottom", none⟩] : List TextLabel).map unitBoxAt)
      [⟨((3 : ℝ)/10, (2 : ℝ)/5), "left", "bottom", none⟩,
        ⟨(0, 0), "left", "bottom", none⟩] 0 1 =
      some [⟨((77 : ℝ)/250, (203 : ℝ)/500), "center", "center", none⟩,
        ⟨(-(1 : ℝ)/125, -(3 : ℝ)/500), "center", "center", none⟩] := by
    simp only [jiggleStep]
    rw [show ((([⟨((3 : ℝ)/10, (2 : ℝ)/5), "left", "bottom", none⟩,
      ⟨(0, 0), "left", "bottom", none⟩] : List TextLabel).map
      unitBoxAt).getD 0 default).centroid = ((3 : ℝ)/10, (2 : ℝ)/5) from by
      norm_num [unitBoxAt, Box.centroid, Prod.ext_iff]]
    rw [show ((([⟨((3 : ℝ)/10, (2 : ℝ)/5), "left", "bottom", none⟩,
      ⟨(0, 0), "left", "bottom", none⟩] : List TextLabel).map
      unitBoxAt).getD 1 default).centroid = ((0 : ℝ), (0 : ℝ)) from by
      norm_num [unitBoxAt, Box.centroid, Prod.ext_iff]]
    rw [jiggleVec_of_ne _ _ _ _ (by norm_num [Prod.ext_iff])]
    rw [hnorm, hjx, hjy]
    norm_num [Prod.ext_iff]
  unfold jiggle_text
  rw [jiggleLoop_step unitBoxAt (jiggle_x (0, 1)) (jiggle_y (0, 1)) _ 0 0 1
    hfp]
  rw [hstep]
  simp only [Option.some_bind]
  rw [show jiggleLoop unitBoxAt (jiggle_x (0, 1)) (jiggle_y (0, 1))
    (setBackgrounds [⟨((77 : ℝ)/250, (203 : ℝ)/500), "center", "center",
      none⟩, ⟨(-(1 : ℝ)/125, -(3 : ℝ)/500), "center", "center", none⟩]) 0 =
    some (setBackgrounds [⟨((77 : ℝ)/250, (203 : ℝ)/500), "center", "center",
      none⟩, ⟨(-(1 : ℝ)/125, -(3 : ℝ)/500), "center", "center", none⟩], 0)
    from rfl]
  simp [setBackgrounds]

end Psynlig
